import Mathlib

/-!
Shallow embedding of the environment-derivation and CLI-resolution subsystem:

* `src/main/lib/claude/env.ts`        (namespace `ClaudeEnv`)
* `src/main/lib/claude/system-cli-resolver.ts` (namespace `CliResolver`)
* `src/main/lib/git/shell-env.ts`     (namespace `ShellEnv`)

JavaScript environment objects are modelled as `String → Option String`
(`none` = key absent or bound to a non-string/undefined value; a JS object
cannot observe the difference anywhere this subsystem reads it).  The host
`process.env` listing is a `List (String × Option String)` (a `none` value
models an entry whose value is not a string).  Effectful library calls
(filesystem `stat`, shell spawn, `which` lookup, Node's win32 path library)
are inputs of explicit world structures, so each source function becomes a
total function of its world and its mutable-state snapshot.
-/

/-- JS `String.prototype.split` with a non-empty separator, over char lists.
Fuel-based so that it reduces in the kernel; the fuel `length + 1` always
suffices because each step consumes at least one character. -/
def splitFuel (sep : List Char) : Nat → List Char → List Char → List (List Char)
  | 0, l, acc => [acc ++ l]
  | _ + 1, [], acc => [acc]
  | fuel + 1, c :: rest, acc =>
    if sep.isPrefixOf (c :: rest) then
      acc :: splitFuel sep fuel ((c :: rest).drop sep.length) []
    else
      splitFuel sep fuel rest (acc ++ [c])

/-- JS `s.split(sep)` for a non-empty separator string. -/
def jsSplit (sep s : String) : List String :=
  (splitFuel sep.data (s.data.length + 1) s.data []).map String.mk

/-- JS `Array.prototype.join(sep)`. -/
def joinSep (sep : String) : List String → String
  | [] => ""
  | h :: t => t.foldl (fun a b => a ++ sep ++ b) h

/-- A JS environment object. -/
abbrev EnvMap := String → Option String

def envEmpty : EnvMap := fun _ => none

/-- JS `obj[k] = v`. -/
def envSet (m : EnvMap) (k v : String) : EnvMap := fun q => if q = k then some v else m q

/-- JS `delete obj[k]`. -/
def envErase (m : EnvMap) (k : String) : EnvMap := fun q => if q = k then none else m q

/-- JS truthiness of a possibly-absent string value (the empty string is falsy). -/
def jsTruthy : Option String → Bool
  | some s => s != ""
  | none => false

/-- JS `a || d` for a possibly-absent string `a` with default `d`. -/
def jsOr (o : Option String) (d : String) : String :=
  match o with
  | some s => if s = "" then d else s
  | none => d

/-- JS object spread `{...process.env}`: entries applied in order, later wins;
an entry with a non-string value leaves its key unobservable (see module note). -/
def ofProc (l : List (String × Option String)) : EnvMap :=
  l.foldl (fun m p => fun q => if q = p.1 then p.2 else m q) envEmpty

/-- `for (const [k, v] of Object.entries(process.env)) if (typeof v === "string") out[k] = v`:
copy only the string-valued entries of the host environment listing. -/
def stringEntries (l : List (String × Option String)) : EnvMap :=
  l.foldl (fun m p => match p.2 with | some v => envSet m p.1 v | none => m) envEmpty

/-- Lookup of one `process.env` variable (`process.env.X`). -/
def procGet (l : List (String × Option String)) (k : String) : Option String :=
  ofProc l k

/-- JS `String.prototype.toLowerCase` (ASCII-faithful; every string compared
case-insensitively by this subsystem is an ASCII Windows path). -/
def lowerStr (s : String) : String := String.mk (s.data.map Char.toLower)

/-- Substring test, used to state facts about error-message texts. -/
def containsSub (needle hay : String) : Bool :=
  (List.range (hay.data.length + 1)).any fun i => needle.data.isPrefixOf (hay.data.drop i)

/-- JS `parseInt` restricted to a run of decimal digits (the only inputs the
version parser ever feeds it). -/
def natOfDigits (l : List Char) : Nat :=
  l.foldl (fun n c => 10 * n + (c.toNat - 48)) 0

/-- `process.platform` values this subsystem distinguishes. -/
inductive Platform
  | darwin
  | linux
  | win32
deriving DecidableEq, Repr

/-- Parse one line of an `env` dump: split at the first `=` provided it is at
offset ≥ 1 (`line.indexOf("=") > 0`). -/
def parseEnvLine (line : String) : Option (String × String) :=
  match line.data.findIdx? (· == '=') with
  | some i =>
    if 0 < i then some (String.mk (line.data.take i), String.mk (line.data.drop (i + 1)))
    else none
  | none => none

/-- Abstract interface to Node's win32 path-library calls made by the two
`buildWindowsPath` functions (the library itself is outside this repository).
`join1`/`join2`/`join3` are `path.join` at the arities used. -/
structure WinPathLib where
  normalize : String → String
  join1 : String → String
  join2 : String → String → String
  join3 : String → String → String → String

namespace PosixPath

/-- Node `path.posix.isAbsolute`. -/
def isAbs (s : String) : Bool :=
  match s.data with
  | [] => false
  | c :: _ => c == '/'

/-- Node's `normalizeString`: resolve `.` and `..` segments; `allowAboveRoot`
is true for relative paths (leading `..` survive) and false for absolute ones. -/
def normSegs (allowAboveRoot : Bool) (segs : List String) : List String :=
  segs.foldl
    (fun acc seg =>
      if seg == "" || seg == "." then acc
      else if seg == ".." then
        if !acc.isEmpty && acc.getLast? != some ".." then acc.dropLast
        else if allowAboveRoot then acc ++ [".."]
        else acc
      else acc ++ [seg])
    []

/-- Node `path.posix.normalize`. -/
def normalize (p : String) : String :=
  if p = "" then "."
  else
    let abs := isAbs p
    let trailing := p.data.getLast? == some '/'
    let core := joinSep "/" (normSegs (!abs) (jsSplit "/" p))
    if core = "" then
      if abs then "/" else if trailing then "./" else "."
    else
      let core := if trailing then core ++ "/" else core
      if abs then "/" ++ core else core

/-- Node `path.posix.resolve` for an absolute argument (the only way this
subsystem calls it: on paths that already passed the absolute check), where
the working directory is irrelevant. -/
def resolveAbs (p : String) : String :=
  "/" ++ joinSep "/" (normSegs false (jsSplit "/" p))

end PosixPath

namespace ClaudeEnv

/-- `DELIMITER` from `claude/env.ts`. -/
def DELIMITER : String := "_CLAUDE_ENV_DELIMITER_"

/-- `STRIPPED_ENV_KEYS` from `claude/env.ts`. -/
def STRIPPED_ENV_KEYS : List String :=
  ["ANTHROPIC_API_KEY", "OPENAI_API_KEY", "CLAUDE_CODE_USE_BEDROCK", "CLAUDE_CODE_USE_VERTEX"]

/-- World state read by `claude/env.ts`: platform, host environment, OS user
info, the `stripVTControlCharacters` library function, the win32 path library
and the outcome of the `execSync` shell spawn (`.error` = threw/timed out). -/
structure CWorld where
  plat : Platform
  processEnv : List (String × Option String)
  homedir : String
  username : String
  stripVT : String → String
  lib : WinPathLib
  spawn : Except String String

/-- `paths` seeded from the existing `process.env.PATH` (truthiness-guarded,
split on `";"`, empty entries dropped by `filter(Boolean)`). -/
def basePaths (procPath : Option String) : List String :=
  match procPath with
  | some p => if p = "" then [] else (jsSplit ";" p).filter (· != "")
  | none => []

/-- The `commonPaths` list of `claude/env.ts` `buildWindowsPath`. -/
def commonPathsClaude (lib : WinPathLib) (homedir : String)
    (progFiles progFilesX86 localAppData systemRoot : Option String) : List String :=
  [lib.join3 homedir ".local" "bin",
   lib.join2 (jsOr progFiles "C:\\Program Files") "Claude",
   lib.join2 (jsOr progFilesX86 "C:\\Program Files (x86)") "Claude",
   lib.join3 (jsOr localAppData (lib.join3 homedir "AppData" "Local")) "Programs" "Claude",
   lib.join2 (jsOr systemRoot "C:\\Windows") "System32",
   lib.join1 (jsOr systemRoot "C:\\Windows")]

/-- One iteration of the `claude/env.ts` append loop: normalize the candidate
and push it unless it is already an exact member of `paths`
(`paths.includes(normalizedPath)` — exact, case-sensitive). -/
def claudeStep (lib : WinPathLib) (acc : List String) (c : String) : List String :=
  let normalizedPath := lib.normalize c
  if acc.contains normalizedPath then acc else acc ++ [normalizedPath]

/-- The append loop of `claude/env.ts` `buildWindowsPath`. -/
def appendClaude (lib : WinPathLib) (paths commons : List String) : List String :=
  commons.foldl (claudeStep lib) paths

/-- `buildWindowsPath` of `claude/env.ts`, as the final `paths` array. -/
def buildWindowsPathPaths (lib : WinPathLib)
    (procPath progFiles progFilesX86 localAppData systemRoot : Option String)
    (homedir : String) : List String :=
  appendClaude lib (basePaths procPath)
    (commonPathsClaude lib homedir progFiles progFilesX86 localAppData systemRoot)

/-- `buildWindowsPath` of `claude/env.ts` (joined result). -/
def buildWindowsPath (lib : WinPathLib)
    (procPath progFiles progFilesX86 localAppData systemRoot : Option String)
    (homedir : String) : String :=
  joinSep ";" (buildWindowsPathPaths lib procPath progFiles progFilesX86 localAppData
    systemRoot homedir)

/-- `getShellExecutable` from `claude/env.ts`. -/
def getShellExecutable (w : CWorld) : String :=
  if w.plat = .win32 then jsOr (procGet w.processEnv "COMSPEC") "powershell.exe"
  else jsOr (procGet w.processEnv "SHELL") "/bin/zsh"

/-- `parseEnvOutput` from `claude/env.ts`: take the section between the two
delimiters (`output.split(DELIMITER)[1]`, falsy guard), strip VT control
characters, split into lines, drop empty lines, parse `KEY=VALUE` pairs. -/
def parseEnvOutput (stripVT : String → String) (output : String) : EnvMap :=
  match (jsSplit DELIMITER output).get? 1 with
  | none => envEmpty
  | some envSection =>
    if envSection = "" then envEmpty
    else
      ((jsSplit "\n" (stripVT envSection)).filter (· != "")).foldl
        (fun m line =>
          match parseEnvLine line with
          | some kv => envSet m kv.1 kv.2
          | none => m)
        envEmpty

/-- One iteration of the strip loop: `if (key in env) delete env[key]`. -/
def stripStep (m : EnvMap) (key : String) : EnvMap :=
  if (m key).isSome then envErase m key else m

/-- The strip loop over `STRIPPED_ENV_KEYS`. -/
def stripSensitive (env : EnvMap) : EnvMap :=
  STRIPPED_ENV_KEYS.foldl stripStep env

/-- The Windows-branch environment of `getClaudeShellEnvironment` before the
strip loop: `{...process.env, PATH: buildWindowsPath(), HOME, USER, USERPROFILE}`. -/
def winShellEnv (w : CWorld) : EnvMap :=
  envSet (envSet (envSet (envSet (ofProc w.processEnv)
    "PATH" (buildWindowsPath w.lib (procGet w.processEnv "PATH")
      (procGet w.processEnv "ProgramFiles") (procGet w.processEnv "ProgramFiles(x86)")
      (procGet w.processEnv "LOCALAPPDATA") (procGet w.processEnv "SystemRoot") w.homedir))
    "HOME" w.homedir) "USER" w.username) "USERPROFILE" w.homedir

/-- The catch-branch fallback environment of `getClaudeShellEnvironment`
(minimal fixed keys; the Windows arm of each conditional is kept even though
the catch is only reachable off-Windows). -/
def fallbackEnv (w : CWorld) : EnvMap :=
  let pathSeparator := if w.plat = .win32 then ";" else ":"
  let fallbackPathParts :=
    if w.plat = .win32 then
      [w.lib.join3 w.homedir ".local" "bin",
       w.lib.join2 (jsOr (procGet w.processEnv "ProgramFiles") "C:\\Program Files") "Claude",
       w.lib.join3 (jsOr (procGet w.processEnv "LOCALAPPDATA")
         (w.lib.join3 w.homedir "AppData" "Local")) "Programs" "Claude",
       w.lib.join2 (jsOr (procGet w.processEnv "ProgramFiles(x86)") "C:\\Program Files (x86)")
         "Claude",
       w.lib.join2 (jsOr (procGet w.processEnv "SystemRoot") "C:\\Windows") "System32"]
    else
      [w.homedir ++ "/.local/bin", "/opt/homebrew/bin", "/usr/local/bin", "/usr/bin",
       "/bin", "/usr/sbin", "/sbin"]
  let fallbackPath := joinSep pathSeparator fallbackPathParts
  let fb := envSet (envSet (envSet (envSet envEmpty
    "HOME" w.homedir) "USER" w.username) "PATH" fallbackPath) "SHELL" (getShellExecutable w)
  let fb := if w.plat = .win32 then fb else envSet fb "TERM" "xterm-256color"
  if w.plat = .win32 then
    envSet (envSet fb "USERPROFILE" w.homedir)
      "SystemRoot" (jsOr (procGet w.processEnv "SystemRoot") "C:\\Windows")
  else fb

/-- `getClaudeShellEnvironment`: module-level cache `cachedShellEnv` passed and
returned explicitly.  Returns the handed-out copy and the new cache. -/
def getClaudeShellEnvironment (w : CWorld) (cachedShellEnv : Option EnvMap) :
    EnvMap × Option EnvMap :=
  match cachedShellEnv with
  | some e => (e, some e)
  | none =>
    if w.plat = .win32 then
      let env := stripSensitive (winShellEnv w)
      (env, some env)
    else
      match w.spawn with
      | .ok output =>
        let env := stripSensitive (parseEnvOutput w.stripVT output)
        (env, some env)
      | .error _ =>
        let fb := fallbackEnv w
        (fb, some fb)

/-- `buildClaudeEnv`: shell environment, then a `process.env` overlay (string
values only), shell-`PATH` restore, critical-variable defaults, `ghToken` and
`customEnv` overrides, and the SDK entrypoint marker. -/
def buildClaudeEnv (w : CWorld) (cachedShellEnv : Option EnvMap)
    (ghToken : Option String) (customEnv : Option (List (String × String))) :
    EnvMap × Option EnvMap :=
  let r := getClaudeShellEnvironment w cachedShellEnv
  let env := r.1
  let shellPath := env "PATH"
  let env := w.processEnv.foldl
    (fun m p => match p.2 with | some v => envSet m p.1 v | none => m) env
  let env := match shellPath with
    | some p => if p != "" then envSet env "PATH" p else env
    | none => env
  let env := if jsTruthy (env "HOME") then env else envSet env "HOME" w.homedir
  let env := if jsTruthy (env "USER") then env else envSet env "USER" w.username
  let env := if jsTruthy (env "SHELL") then env else envSet env "SHELL" (getShellExecutable w)
  let env := if !jsTruthy (env "TERM") && w.plat != Platform.win32 then
      envSet env "TERM" "xterm-256color"
    else env
  let env := if w.plat = .win32 then
      (if jsTruthy (env "USERPROFILE") then env else envSet env "USERPROFILE" w.homedir)
    else env
  let env := if w.plat = .win32 then
      (if jsTruthy (env "SystemRoot") then env
       else envSet env "SystemRoot" (jsOr (procGet w.processEnv "SystemRoot") "C:\\Windows"))
    else env
  let env := match ghToken with
    | some t => if t != "" then envSet env "GH_TOKEN" t else env
    | none => env
  let env := match customEnv with
    | some l => l.foldl
        (fun m p => if p.2 = "" then envErase m p.1 else envSet m p.1 p.2) env
    | none => env
  (envSet env "CLAUDE_CODE_ENTRYPOINT" "sdk-ts", r.2)

end ClaudeEnv

namespace CliResolver

/-- `MINIMUM_CLAUDE_VERSION` from `system-cli-resolver.ts`. -/
def MINIMUM_CLAUDE_VERSION : String := "2.0.0"

/-- `ClaudeCliHealthStatus`. -/
inductive HealthStatus
  | OK
  | MISSING
  | VERSION_INCOMPATIBLE
  | PERMISSION_ERROR
  | VALIDATION_ERROR
deriving DecidableEq, Repr

/-- `ClaudeVersionInfo`. -/
structure VersionInfo where
  version : String
  major : Nat
  minor : Nat
  patch : Nat
  isCompatible : Bool
deriving DecidableEq, Repr

/-- Outcome of `fs.promises.stat`: not-found (`ENOENT`), another error (its
message), or stats (`isFile()` and `mode`). -/
inductive StatOutcome
  | enoent
  | failure (msg : String)
  | stats (isFile : Bool) (mode : Nat)

/-- The filesystem as read by `validateCliPath`. -/
structure FileSys where
  stat : String → StatOutcome

/-- `validateCliPath` (POSIX form of the `path` library; the platform
parameter governs the executable-bit check exactly as `process.platform`
does).  `64 = S_IXUSR`. -/
def validateCliPath (plat : Platform) (fsys : FileSys) (cliPath : String) : Option String :=
  if !PosixPath.isAbs cliPath then some "CLI path must be absolute"
  else
    let normalized := PosixPath.normalize cliPath
    if normalized != cliPath then
      some "CLI path contains invalid characters or redundant separators"
    else
      let parts := jsSplit "/" normalized
      if parts.any (fun part => part == ".." || part == ".") then
        some "CLI path cannot contain directory traversal (.. or .)"
      else
        match fsys.stat normalized with
        | .enoent => some "CLI path does not exist"
        | .failure msg => some ("Validation error: " ++ msg)
        | .stats isFile mode =>
          if !isFile then some "CLI path must point to a file, not a directory"
          else if plat != Platform.win32 && (mode &&& 64) == 0 then
            some "CLI path is not executable"
          else none

/-- Maximal digit run at the head of the list (`\d+` against a literal-dot
continuation: the digit class and `.` are disjoint, so greedy matching with
backtracking equals the maximal run). -/
def takeDigits (l : List Char) : List Char × List Char :=
  (l.takeWhile Char.isDigit, l.dropWhile Char.isDigit)

/-- Try to match `(\d+)\.(\d+)\.(\d+)` at the head of the list. -/
def matchTripleHere (l : List Char) : Option (Nat × Nat × Nat) :=
  let p1 := takeDigits l
  if p1.1.isEmpty then none
  else
    match p1.2 with
    | '.' :: r2 =>
      let p2 := takeDigits r2
      if p2.1.isEmpty then none
      else
        match p2.2 with
        | '.' :: r4 =>
          let p3 := takeDigits r4
          if p3.1.isEmpty then none
          else some (natOfDigits p1.1, natOfDigits p2.1, natOfDigits p3.1)
        | _ => none
    | _ => none

/-- Leftmost match of `output.match(/(\d+)\.(\d+)\.(\d+)/)`. -/
def firstTriple : List Char → Option (Nat × Nat × Nat)
  | [] => none
  | c :: rest =>
    match matchTripleHere (c :: rest) with
    | some t => some t
    | none => firstTriple rest

/-- `MINIMUM_CLAUDE_VERSION.split(".").map(Number)`. -/
def minParts : List Nat := (jsSplit "." MINIMUM_CLAUDE_VERSION).map (fun s => natOfDigits s.data)

/-- The compatibility expression of `parseVersion`, verbatim. -/
def compatCheck (major minor patch : Nat) : Bool :=
  decide (major > minParts.getD 0 0) ||
    (decide (major = minParts.getD 0 0) &&
      (decide (minor > minParts.getD 1 0) ||
        (decide (minor = minParts.getD 1 0) && decide (patch ≥ minParts.getD 2 0))))

/-- `parseVersion` (the `isNaN` guards are vacuous on digit runs and elided). -/
def parseVersion (output : String) : Option VersionInfo :=
  match firstTriple output.data with
  | none => none
  | some t =>
    let version := Nat.repr t.1 ++ "." ++ Nat.repr t.2.1 ++ "." ++ Nat.repr t.2.2
    some ⟨version, t.1, t.2.1, t.2.2, compatCheck t.1 t.2.1 t.2.2⟩

/-- World state read by one run of `resolveClaudeCli`: the filesystem, the
outcome of `resolveFromPath(shellEnv)` (an absolute path or not-found; its
`which`/`where` spawns are outside the claims) and the stdout of
`execFile(cliPath, ["--version"])` (`none` = execution failed). -/
structure RWorld where
  plat : Platform
  fsys : FileSys
  pathLookup : Option String
  execVersion : String → Option String

/-- `getCliVersion`: run `--version` and parse; `none` on any failure. -/
def getCliVersion (w : RWorld) (cliPath : String) : Option VersionInfo :=
  (w.execVersion cliPath).bind parseVersion

/-- `ClaudeCliResolution` (the absent `error` field is `none`). -/
structure Resolution where
  path : Option String
  version : Option VersionInfo
  status : HealthStatus
  error : Option String
deriving DecidableEq, Repr

/-- `ResolutionCache` entry. -/
structure ResolutionCache extends Resolution where
  timestamp : Nat
deriving DecidableEq, Repr

/-- `resolutionCache = { ...result, timestamp: Date.now() }`. -/
def cacheResult (r : Resolution) (now : Nat) : Option ResolutionCache :=
  some ⟨r, now⟩

/-- The `MISSING` result of Step 3 (`configuredPath ?` is JS truthiness; in
the reachable configured case `validationError` is a string). -/
def missingResult (configuredPath : Option String) (validationError : Option String) :
    Resolution :=
  ⟨none, none, .MISSING,
    some (if jsTruthy configuredPath then
      "Configured path invalid: " ++ validationError.getD "null" ++ ". Also not found in PATH."
    else
      "Claude CLI not found in PATH. Install it or configure a custom path in settings.")⟩

/-- Step 1: validate a truthy configured path; on success resolve it, on
failure remember the reason. -/
def configStep (w : RWorld) (configuredPath : Option String) :
    Option String × Option String :=
  if jsTruthy configuredPath then
    match validateCliPath w.plat w.fsys (configuredPath.getD "") with
    | none => (some (PosixPath.resolveAbs (configuredPath.getD "")), none)
    | some e => (none, some e)
  else (none, none)

/-- Step 4's `if (!validationError) validationError = await validateCliPath(resolvedPath)`:
a pending error from the configured path is kept as-is. -/
def step4Error (w : RWorld) (rp : String) (validationError : Option String) : Option String :=
  match validationError with
  | none => validateCliPath w.plat w.fsys rp
  | some e => some e

/-- Steps 4–6 for a resolved path `rp`. -/
def classify (w : RWorld) (now : Nat) (rp : String) (validationError : Option String) :
    Resolution × Option ResolutionCache :=
  match step4Error w rp validationError with
  | some e =>
    let r : Resolution := ⟨some rp, none, .VALIDATION_ERROR, some e⟩
    (r, cacheResult r now)
  | none =>
    match getCliVersion w rp with
    | none =>
      let r : Resolution := ⟨some rp, none, .VERSION_INCOMPATIBLE,
        some "Failed to determine Claude CLI version. CLI may be corrupted or incompatible."⟩
      (r, cacheResult r now)
    | some version =>
      if !version.isCompatible then
        let r : Resolution := ⟨some rp, some version, .VERSION_INCOMPATIBLE,
          some ("Claude CLI version " ++ version.version ++
            " is below minimum required version " ++ MINIMUM_CLAUDE_VERSION ++
            ". Please upgrade.")⟩
        (r, cacheResult r now)
      else
        let r : Resolution := ⟨some rp, some version, .OK, none⟩
        (r, cacheResult r now)

/-- A fresh (non-cached) resolution: Steps 1–6. -/
def resolveFresh (w : RWorld) (now : Nat) (configuredPath : Option String) :
    Resolution × Option ResolutionCache :=
  let step1 := configStep w configuredPath
  let resolvedPath := if jsTruthy step1.1 then step1.1 else w.pathLookup
  match resolvedPath with
  | none =>
    let r := missingResult configuredPath step1.2
    (r, cacheResult r now)
  | some rp =>
    if rp = "" then
      let r := missingResult configuredPath step1.2
      (r, cacheResult r now)
    else classify w now rp step1.2

/-- `resolveClaudeCli`, with the module-level `resolutionCache` passed and
returned explicitly.  (`getShellEnvironment` feeds only the abstracted
`pathLookup` / `execVersion` world inputs.) -/
def resolveClaudeCli (w : RWorld) (now : Nat) (configuredPath : Option String)
    (skipCache : Bool) (cache : Option ResolutionCache) :
    Resolution × Option ResolutionCache :=
  if !skipCache then
    match cache with
    | some c => (⟨c.path, c.version, c.status, c.error⟩, some c)
    | none => resolveFresh w now configuredPath
  else resolveFresh w now configuredPath

end CliResolver

namespace ShellEnv

/-- `CACHE_TTL_MS` (full-derivation cache TTL, 1 minute). -/
def CACHE_TTL_MS : Nat := 60000

/-- `FALLBACK_CACHE_TTL_MS` (fallback cache TTL, 10 seconds). -/
def FALLBACK_CACHE_TTL_MS : Nat := 10000

/-- The module-level environment cache: `cachedEnv`, `cacheTime`, `isFallbackCache`. -/
structure ShellCache where
  cachedEnv : Option EnvMap
  cacheTime : Nat
  isFallbackCache : Bool

/-- World state read by `git/shell-env.ts`: platform, host environment, OS
user info, the win32 path library, the `execFileAsync(shell, ["-lc", "env"])`
outcome (`.error` = spawn failed or timed out) and the clock. -/
structure GitWorld where
  plat : Platform
  processEnv : List (String × Option String)
  homedir : String
  username : String
  lib : WinPathLib
  spawn : Except String String
  now : Nat

/-- The `commonPaths` list of `git/shell-env.ts` `buildWindowsPath`. -/
def commonPathsGit (lib : WinPathLib) (homedir : String) (systemRoot : Option String) :
    List String :=
  [lib.join3 homedir ".local" "bin",
   "C:\\Program Files\\Git\\cmd",
   "C:\\Program Files\\Git\\bin",
   lib.join2 (jsOr systemRoot "C:\\Windows") "System32",
   lib.join1 (jsOr systemRoot "C:\\Windows")]

/-- One iteration of the `git/shell-env.ts` append loop: normalize the
candidate and push it unless some existing entry is equal after normalizing
and lower-casing both sides (case-insensitive Windows check). -/
def gitStep (lib : WinPathLib) (acc : List String) (c : String) : List String :=
  let normalizedPath := lib.normalize c
  let normalizedLower := lowerStr normalizedPath
  if acc.any (fun p => lowerStr (lib.normalize p) == normalizedLower) then acc
  else acc ++ [normalizedPath]

/-- The append loop of `git/shell-env.ts` `buildWindowsPath`. -/
def appendGit (lib : WinPathLib) (paths commons : List String) : List String :=
  commons.foldl (gitStep lib) paths

/-- `buildWindowsPath` of `git/shell-env.ts`, as the final `paths` array. -/
def buildWindowsPathPaths (lib : WinPathLib) (procPath systemRoot : Option String)
    (homedir : String) : List String :=
  appendGit lib (ClaudeEnv.basePaths procPath) (commonPathsGit lib homedir systemRoot)

/-- `buildWindowsPath` of `git/shell-env.ts` (joined result). -/
def buildWindowsPath (lib : WinPathLib) (procPath systemRoot : Option String)
    (homedir : String) : String :=
  joinSep ";" (buildWindowsPathPaths lib procPath systemRoot homedir)

/-- The Windows-branch environment: `{...process.env, PATH: buildWindowsPath(),
HOME, USER, USERPROFILE}`.  The subsequent `typeof value === "string"` filter
of the source only drops entries bound to a non-string value, which this
representation already treats as absent. -/
def winEnv (w : GitWorld) : EnvMap :=
  envSet (envSet (envSet (envSet (ofProc w.processEnv)
    "PATH" (buildWindowsPath w.lib (procGet w.processEnv "PATH")
      (procGet w.processEnv "SystemRoot") w.homedir))
    "HOME" w.homedir) "USER" w.username) "USERPROFILE" w.homedir

/-- Parse the stdout of `shell -lc env`: every line with `=` at offset ≥ 1. -/
def parseStdout (stdout : String) : EnvMap :=
  (jsSplit "\n" stdout).foldl
    (fun m line =>
      match parseEnvLine line with
      | some kv => envSet m kv.1 kv.2
      | none => m)
    envEmpty

/-- A fresh derivation (cache miss): Windows synthesis, shell parse on
success, or the `process.env` string-entry fallback on spawn failure.
Returns the map and the `isFallbackCache` flag for it. -/
def deriveEnv (w : GitWorld) : EnvMap × Bool :=
  if w.plat = .win32 then (winEnv w, false)
  else
    match w.spawn with
    | .ok stdout => (parseStdout stdout, false)
    | .error _ => (stringEntries w.processEnv, true)

/-- `getShellEnvironment`: TTL-guarded cache read (shorter TTL when the cache
holds a fallback), fresh derivation otherwise.  Total: spawn failure is the
`.error` world input and lands in the fallback branch, never an exception. -/
def getShellEnvironment (w : GitWorld) (st : ShellCache) : EnvMap × ShellCache :=
  let ttl := if st.isFallbackCache then FALLBACK_CACHE_TTL_MS else CACHE_TTL_MS
  match st.cachedEnv with
  | some e =>
    if w.now - st.cacheTime < ttl then (e, st)
    else
      let d := deriveEnv w
      (d.1, ⟨some d.1, w.now, d.2⟩)
  | none =>
    let d := deriveEnv w
    (d.1, ⟨some d.1, w.now, d.2⟩)

/-- The error thrown by `execFileAsync` (`code` is the optional `error.code`;
`none` also covers a non-`Error` throw or an error without a `code`). -/
structure ExecError where
  code : Option String
deriving DecidableEq, Repr

/-- A successful `execFileAsync` result. -/
structure ExecOutcome where
  stdout : String
  stderr : String
deriving DecidableEq, Repr

/-- World state for one `execWithShellEnv` call: the shell-environment world,
the outcome of the first `execFileAsync(cmd, args, ...)`, the outcome of the
retry, and the caller's `options.env` entries (`[]` = absent). -/
structure ExecWorld where
  shellWorld : GitWorld
  firstResult : Except ExecError ExecOutcome
  retryResult : Except ExecError ExecOutcome
  optionsEnv : List (String × String)

/-- Process-wide mutable state touched by `execWithShellEnv`:
`pathFixAttempted`, `pathFixSucceeded`, the environment cache, and
`process.env.PATH` (which the fix overwrites). -/
structure FixState where
  pathFixAttempted : Bool
  pathFixSucceeded : Bool
  envCache : ShellCache
  procPath : Option String

/-- Observable trace of one `execWithShellEnv` call: final result, final
state, how many environment derivations and retries ran, and the environment
the retry used (when one ran). -/
structure ExecTrace where
  result : Except ExecError ExecOutcome
  state : FixState
  derivations : Nat
  retries : Nat
  retryEnv : Option EnvMap

/-- JS spread `{...base, ...overrides}` for a list of string overrides. -/
def overlay (base : EnvMap) (l : List (String × String)) : EnvMap :=
  l.foldl (fun m p => envSet m p.1 p.2) base

/-- `execWithShellEnv`.  The guard mirrors the source: retry only on macOS,
only when no fix is in flight or has succeeded, and only on `ENOENT`; the
derivation itself is total (see `getShellEnvironment`), so the inner catch
fires exactly when the retry fails, resetting `pathFixAttempted`. -/
def execWithShellEnv (w : ExecWorld) (st : FixState) : ExecTrace :=
  match w.firstResult with
  | .ok o => ⟨.ok o, st, 0, 0, none⟩
  | .error e =>
    if w.shellWorld.plat != Platform.darwin || st.pathFixSucceeded || st.pathFixAttempted
        || e.code != some "ENOENT" then
      ⟨.error e, st, 0, 0, none⟩
    else
      let st1 : FixState := ⟨true, st.pathFixSucceeded, st.envCache, st.procPath⟩
      let d := getShellEnvironment w.shellWorld st1.envCache
      let shellEnv := d.1
      let st2 : FixState :=
        if jsTruthy (shellEnv "PATH") then ⟨true, true, d.2, shellEnv "PATH"⟩
        else ⟨true, st1.pathFixSucceeded, d.2, st1.procPath⟩
      let retryEnv :=
        match shellEnv "PATH" with
        | some p =>
          if p != "" then envSet (overlay shellEnv w.optionsEnv) "PATH" p
          else overlay shellEnv w.optionsEnv
        | none => overlay shellEnv w.optionsEnv
      match w.retryResult with
      | .ok o => ⟨.ok o, st2, 1, 1, some retryEnv⟩
      | .error r =>
        ⟨.error r, ⟨false, st2.pathFixSucceeded, st2.envCache, st2.procPath⟩, 1, 1,
          some retryEnv⟩

end ShellEnv

/-! ### Definitions used to state the claims -/

/-- An environment map is free of the sensitive keys (`STRIPPED_ENV_KEYS`). -/
def SensitiveFree (e : EnvMap) : Prop :=
  ∀ k ∈ ClaudeEnv.STRIPPED_ENV_KEYS, e k = none

/-- An environment map carries a non-empty `PATH` entry. -/
def HasNonemptyPATH (e : EnvMap) : Prop :=
  ∃ v, e "PATH" = some v ∧ v ≠ ""

/-- Lexicographic `≥` on version triples, stated as the spec states it:
compare major first, then minor, then patch. -/
def specLexGe (a b : Nat × Nat × Nat) : Prop :=
  b.1 < a.1 ∨ (a.1 = b.1 ∧ (b.2.1 < a.2.1 ∨ (a.2.1 = b.2.1 ∧ b.2.2 ≤ a.2.2)))

/-- The PATH-builder output invariant claimed for both `buildWindowsPath`
functions: no entry appended from the candidate list (position `≥ baseLen`)
is equal, after normalization and case folding, to any entry before it. -/
def CandidateDedup (normalize : String → String) (baseLen : Nat) (out : List String) : Prop :=
  ∀ j, baseLen ≤ j → j < out.length → ∀ i, i < j →
    lowerStr (normalize (out.getD i "")) ≠ lowerStr (normalize (out.getD j ""))

/-- A path that passes the three syntactic checks of `validateCliPath`:
absolute, equal to its own normalized form, and without a `.`/`..` segment. -/
def passesSyntax (s : String) : Prop :=
  PosixPath.isAbs s = true ∧ PosixPath.normalize s = s ∧
    (jsSplit "/" s).any (fun part => part == ".." || part == ".") = false

/-- Last value bound to `k` in an override list (JS object-spread semantics). -/
def optLast (l : List (String × String)) (k : String) : Option String :=
  l.foldl (fun acc p => if p.1 = k then some p.2 else acc) none

/-- The result-shape invariant of `resolveClaudeCli` results (claim C10):
`path` is null exactly on `MISSING`; `OK` carries a compatible version and no
error; `VALIDATION_ERROR`/`VERSION_INCOMPATIBLE` carry a path and a non-empty
error message. -/
def ResolutionInv (r : CliResolver.Resolution) : Prop :=
  (r.path = none ↔ r.status = .MISSING) ∧
  (r.status = .OK → r.error = none ∧ ∃ v, r.version = some v ∧ v.isCompatible = true) ∧
  ((r.status = .VALIDATION_ERROR ∨ r.status = .VERSION_INCOMPATIBLE) →
    r.path ≠ none ∧ ∃ e, r.error = some e ∧ e ≠ "")

/-! ### Concrete instances used by witnesses and counterexamples

`libCx` instantiates the abstract win32 path library with functions that
agree with Node's `path.win32` on every concrete string these instances feed
it (all of them already in normal form, so `normalize` is the identity there
and `join` is backslash concatenation).  `libW` differs only in mapping the
empty string to `"."`, as the real `normalize` does, making it globally
idempotent and never empty-valued. -/

def libCx : WinPathLib :=
  ⟨id, id, fun a b => a ++ "\\" ++ b, fun a b c => a ++ "\\" ++ b ++ "\\" ++ c⟩

def libW : WinPathLib :=
  ⟨fun s => if s = "" then "." else s, fun s => if s = "" then "." else s,
   fun a b => a ++ "\\" ++ b, fun a b c => a ++ "\\" ++ b ++ "\\" ++ c⟩

/-- Host with an `ANTHROPIC_API_KEY` in `process.env`; shell spawn fails. -/
def wC1 : ClaudeEnv.CWorld :=
  ⟨.linux, [("PATH", some "/usr/bin"), ("ANTHROPIC_API_KEY", some "sk-test")],
   "/home/u", "u", id, libCx, .error "spawn failed"⟩

/-- Filesystem with exactly one valid executable at `/usr/bin/claude`
(`493 = 0o755`). -/
def fsC2 : CliResolver.FileSys :=
  ⟨fun p => if p = "/usr/bin/claude" then .stats true 493 else .enoent⟩

/-- Resolver world: PATH lookup finds `/usr/bin/claude`, which reports
version `2.1.5`. -/
def wC2 : CliResolver.RWorld :=
  ⟨.darwin, fsC2, some "/usr/bin/claude",
   fun p => if p = "/usr/bin/claude" then some "2.1.5" else none⟩

/-- Filesystem with one owner-executable file at `/opt/tool` (`448 = 0o700`). -/
def fsC3 : CliResolver.FileSys :=
  ⟨fun p => if p = "/opt/tool" then .stats true 448 else .enoent⟩

/-- Unix world whose login shell emits an environment dump without any
`PATH` (or `HOME`) line. -/
def wC5 : ShellEnv.GitWorld :=
  ⟨.linux, [("PATH", some "/usr/bin")], "/root", "u", libCx, .ok "FOO=bar", 1000⟩

/-- Windows world for the shell-environment provider. -/
def wC5w : ShellEnv.GitWorld :=
  ⟨.win32, [("PATH", some "C:\\base")], "C:\\Users\\u", "u", libW, .error "unused", 0⟩

/-- Unix world whose shell spawn fails. -/
def wC6 : ShellEnv.GitWorld :=
  ⟨.linux, [("HOME", some "/home/u"), ("BAD", none), ("PATH", some "/usr/bin")],
   "/home/u", "u", libCx, .error "spawn timed out", 5000⟩

/-- An empty (cold) shell-environment cache. -/
def st0 : ShellEnv.ShellCache := ⟨none, 0, false⟩

/-- macOS exec world: both the original command and the retry fail with
`ENOENT`; the shell derivation succeeds with a usable `PATH`. -/
def wC7 : ShellEnv.ExecWorld :=
  ⟨⟨.darwin, [], "/h", "u", libCx, .ok "PATH=/usr/bin", 0⟩,
   .error ⟨some "ENOENT"⟩, .error ⟨some "ENOENT"⟩, []⟩

/-- Cold process-wide fix state. -/
def stC7 : ShellEnv.FixState := ⟨false, false, st0, none⟩

/-- Resolver world with nothing on PATH and an all-`ENOENT` filesystem. -/
def wC8 : CliResolver.RWorld :=
  ⟨.linux, ⟨fun _ => .enoent⟩, none, fun _ => none⟩

/-! ### Helper lemmas -/

theorem stripStep_preserve (m : EnvMap) (k q : String) (h : m q = none) :
    ClaudeEnv.stripStep m k q = none := by
  unfold ClaudeEnv.stripStep
  split
  · unfold envErase
    by_cases hq : q = k <;> simp [hq, h]
  · exact h

theorem stripStep_self (m : EnvMap) (k : String) : ClaudeEnv.stripStep m k k = none := by
  unfold ClaudeEnv.stripStep
  cases hmk : m k with
  | none => simp [hmk]
  | some v => simp [hmk, envErase]

theorem foldl_strip_preserve (l : List String) (m : EnvMap) (q : String) (h : m q = none) :
    (l.foldl ClaudeEnv.stripStep m) q = none := by
  induction l generalizing m with
  | nil => exact h
  | cons a t ih => exact ih _ (stripStep_preserve m a q h)

theorem foldl_strip_mem (l : List String) (m : EnvMap) (q : String) (h : q ∈ l) :
    (l.foldl ClaudeEnv.stripStep m) q = none := by
  induction l generalizing m with
  | nil => cases h
  | cons a t ih =>
    rcases List.mem_cons.mp h with rfl | ht
    · exact foldl_strip_preserve t _ q (stripStep_self m q)
    · exact ih _ ht

theorem stripSensitive_free (e : EnvMap) : SensitiveFree (ClaudeEnv.stripSensitive e) :=
  fun k hk => foldl_strip_mem _ e k hk

theorem fallbackEnv_free (w : ClaudeEnv.CWorld) : SensitiveFree (ClaudeEnv.fallbackEnv w) := by
  intro k hk
  simp only [ClaudeEnv.STRIPPED_ENV_KEYS, List.mem_cons, List.not_mem_nil, or_false] at hk
  by_cases hplat : w.plat = Platform.win32 <;>
    rcases hk with rfl | rfl | rfl | rfl <;>
    simp [ClaudeEnv.fallbackEnv, hplat, envSet, envEmpty]

/-- C1 (amended): every map `getClaudeShellEnvironment` hands out — and every
cache it installs — is free of the sensitive keys, on the Windows branch, the
shell-parse branch and the catch fallback alike, provided the incoming cache
was itself clean.  (The original claim also covered `buildClaudeEnv` and
`git/shell-env.ts`'s `getShellEnvironment`, which do not strip; see
`c1_counterexample`.) -/
theorem c1_sensitive_keys_amended (w : ClaudeEnv.CWorld) (cache : Option EnvMap)
    (hc : ∀ e, cache = some e → SensitiveFree e) :
    SensitiveFree (ClaudeEnv.getClaudeShellEnvironment w cache).1 ∧
    (∀ e, (ClaudeEnv.getClaudeShellEnvironment w cache).2 = some e → SensitiveFree e) := by
  cases cache with
  | some e =>
    refine ⟨hc e rfl, ?_⟩
    intro e' he'
    simp only [ClaudeEnv.getClaudeShellEnvironment, Option.some.injEq] at he'
    exact he' ▸ hc e rfl
  | none =>
    simp only [ClaudeEnv.getClaudeShellEnvironment]
    split
    · refine ⟨stripSensitive_free _, ?_⟩
      intro e' he'
      simp only [Option.some.injEq] at he'
      exact he' ▸ stripSensitive_free _
    · split
      · refine ⟨stripSensitive_free _, ?_⟩
        intro e' he'
        simp only [Option.some.injEq] at he'
        exact he' ▸ stripSensitive_free _
      · refine ⟨fallbackEnv_free _, ?_⟩
        intro e' he'
        simp only [Option.some.injEq] at he'
        exact he' ▸ fallbackEnv_free _

/-- C1 counterexample: `buildClaudeEnv` overlays `process.env` after the
strip, so a host `ANTHROPIC_API_KEY` reaches the environment it hands out,
falsifying the claim that all three producers never contain sensitive keys. -/
theorem c1_counterexample :
    ¬ SensitiveFree (ClaudeEnv.buildClaudeEnv wC1 none none none).1 := by
  intro h
  have h1 := h "ANTHROPIC_API_KEY" (by decide)
  rw [show (ClaudeEnv.buildClaudeEnv wC1 none none none).1 "ANTHROPIC_API_KEY"
      = some "sk-test" from rfl] at h1
  exact Option.noConfusion h1

/-- Witness for C1's amended theorem, at a concrete world with a cold cache. -/
theorem c1_witness :
    (ClaudeEnv.getClaudeShellEnvironment wC1 none).1 "ANTHROPIC_API_KEY" = none :=
  (c1_sensitive_keys_amended wC1 none (fun _ h => Option.noConfusion h)).1
    "ANTHROPIC_API_KEY" (by decide)

/-- C2 (code bug): with an invalid configured path and a valid, compatible
executable on PATH, `resolveClaudeCli` keeps the stale configured-path
validation error (Step 4 only validates when `validationError` is unset), so
it returns `VALIDATION_ERROR` for the PATH-resolved path instead of falling
through to `OK`.  The second and third conjuncts show the PATH entry was
valid and version-compatible; the last shows the very same world resolves
`OK` when no configured path is supplied. -/
theorem c2_fallthrough_code_bug :
    (CliResolver.resolveClaudeCli wC2 0 (some "claude") false none).1 =
      ⟨some "/usr/bin/claude", none, .VALIDATION_ERROR, some "CLI path must be absolute"⟩ ∧
    CliResolver.validateCliPath wC2.plat wC2.fsys "/usr/bin/claude" = none ∧
    CliResolver.getCliVersion wC2 "/usr/bin/claude" = some ⟨"2.1.5", 2, 1, 5, true⟩ ∧
    (CliResolver.resolveClaudeCli wC2 0 none false none).1.status = .OK :=
  ⟨rfl, rfl, rfl, rfl⟩

/-- C3: `validateCliPath` applies its checks in the stated order with
short-circuit on the first failure — non-absolute, non-normal, traversal
segment, stat outcome (`ENOENT` with its own reason, any other error wrapped
as a validation failure), directory, then (non-Windows) missing owner-execute
bit — accepting an absolute, existing, executable regular file; the fixed
reasons are pairwise distinct and the generic wrapped reason never collides
with the not-found reason. -/
theorem c3_validate_order (plat : Platform) (fsys : CliResolver.FileSys) (s : String) :
    (PosixPath.isAbs s = false →
      CliResolver.validateCliPath plat fsys s = some "CLI path must be absolute") ∧
    (PosixPath.isAbs s = true → PosixPath.normalize s ≠ s →
      CliResolver.validateCliPath plat fsys s =
        some "CLI path contains invalid characters or redundant separators") ∧
    (PosixPath.isAbs s = true → PosixPath.normalize s = s →
      (jsSplit "/" s).any (fun part => part == ".." || part == ".") = true →
      CliResolver.validateCliPath plat fsys s =
        some "CLI path cannot contain directory traversal (.. or .)") ∧
    (passesSyntax s → fsys.stat s = .enoent →
      CliResolver.validateCliPath plat fsys s = some "CLI path does not exist") ∧
    (∀ msg, passesSyntax s → fsys.stat s = .failure msg →
      CliResolver.validateCliPath plat fsys s = some ("Validation error: " ++ msg)) ∧
    (∀ mode, passesSyntax s → fsys.stat s = .stats false mode →
      CliResolver.validateCliPath plat fsys s =
        some "CLI path must point to a file, not a directory") ∧
    (∀ mode, passesSyntax s → fsys.stat s = .stats true mode → plat ≠ .win32 →
      mode &&& 64 = 0 →
      CliResolver.validateCliPath plat fsys s = some "CLI path is not executable") ∧
    (∀ mode, passesSyntax s → fsys.stat s = .stats true mode →
      (plat = .win32 ∨ mode &&& 64 ≠ 0) →
      CliResolver.validateCliPath plat fsys s = none) ∧
    List.Pairwise (· ≠ ·)
      ["CLI path must be absolute",
       "CLI path contains invalid characters or redundant separators",
       "CLI path cannot contain directory traversal (.. or .)",
       "CLI path does not exist",
       "CLI path must point to a file, not a directory",
       "CLI path is not executable"] ∧
    (∀ msg, "Validation error: " ++ msg ≠ "CLI path does not exist") := by
  refine ⟨?_, ?_, ?_, ?_, ?_, ?_, ?_, ?_, by decide, ?_⟩
  · intro h
    simp [CliResolver.validateCliPath, h]
  · intro h1 h2
    simp [CliResolver.validateCliPath, h1, h2]
  · intro h1 h2 h3
    simp [CliResolver.validateCliPath, h1, h2, h3]
  · rintro ⟨h1, h2, h3⟩ hstat
    simp [CliResolver.validateCliPath, h1, h2, h3, hstat]
  · rintro msg ⟨h1, h2, h3⟩ hstat
    simp [CliResolver.validateCliPath, h1, h2, h3, hstat]
  · rintro mode ⟨h1, h2, h3⟩ hstat
    simp [CliResolver.validateCliPath, h1, h2, h3, hstat]
  · rintro mode ⟨h1, h2, h3⟩ hstat hplat hmode
    simp [CliResolver.validateCliPath, h1, h2, h3, hstat, hplat, hmode]
  · rintro mode ⟨h1, h2, h3⟩ hstat hok
    rcases hok with hplat | hmode
    · simp [CliResolver.validateCliPath, h1, h2, h3, hstat, hplat]
    · simp [CliResolver.validateCliPath, h1, h2, h3, hstat, hmode]
  · intro msg h
    have h2 : (some 'V' : Option Char) = some 'C' := by
      calc (some 'V' : Option Char)
          = ("Validation error: " ++ msg).data.head? := by cases msg; rfl
        _ = "CLI path does not exist".data.head? := by rw [h]
        _ = some 'C' := rfl
    exact absurd h2 (by decide)

/-- Witness for C3 at a concrete filesystem: a relative path, a missing path
and a valid executable each get the corresponding outcome. -/
theorem c3_witness :
    CliResolver.validateCliPath .linux fsC3 "relative/x" = some "CLI path must be absolute" ∧
    CliResolver.validateCliPath .linux fsC3 "/opt/none" = some "CLI path does not exist" ∧
    CliResolver.validateCliPath .linux fsC3 "/opt/tool" = none :=
  ⟨(c3_validate_order .linux fsC3 "relative/x").1 (by decide),
   (c3_validate_order .linux fsC3 "/opt/none").2.2.2.1 ⟨rfl, rfl, rfl⟩ rfl,
   (c3_validate_order .linux fsC3 "/opt/tool").2.2.2.2.2.2.2.1 448 ⟨rfl, rfl, rfl⟩ rfl
     (Or.inr (by decide))⟩

/-- C4: for every parsed version, `isCompatible` is true exactly when
`(major, minor, patch)` is lexicographically at least the fixed minimum
`(2, 0, 0)`; in particular `2.0.0`, `2.0.1`, `2.1.0`, `3.0.0` parse
compatible and `1.9.9`, `1.99.99` parse incompatible. -/
theorem c4_version_compat :
    (∀ out v, CliResolver.parseVersion out = some v →
      (v.isCompatible = true ↔ specLexGe (v.major, v.minor, v.patch) (2, 0, 0))) ∧
    (CliResolver.parseVersion "2.0.0").map (·.isCompatible) = some true ∧
    (CliResolver.parseVersion "2.0.1").map (·.isCompatible) = some true ∧
    (CliResolver.parseVersion "2.1.0").map (·.isCompatible) = some true ∧
    (CliResolver.parseVersion "3.0.0").map (·.isCompatible) = some true ∧
    (CliResolver.parseVersion "1.9.9").map (·.isCompatible) = some false ∧
    (CliResolver.parseVersion "1.99.99").map (·.isCompatible) = some false := by
  refine ⟨?_, by decide, by decide, by decide, by decide, by decide, by decide⟩
  intro out v h
  unfold CliResolver.parseVersion at h
  cases hft : CliResolver.firstTriple out.data with
  | none => rw [hft] at h; exact Option.noConfusion h
  | some t =>
    rw [hft] at h
    obtain ⟨a, b, c⟩ := t
    injection h with h
    subst h
    have h0 : CliResolver.minParts.getD 0 0 = 2 := rfl
    have h1 : CliResolver.minParts.getD 1 0 = 0 := rfl
    have h2 : CliResolver.minParts.getD 2 0 = 0 := rfl
    simp only [CliResolver.compatCheck, h0, h1, h2, specLexGe, Bool.or_eq_true,
      Bool.and_eq_true, decide_eq_true_eq]

/-- Witness for C4: applying the theorem to the parse of "claude 2.1.5"
yields lexicographic compatibility of (2, 1, 5) with the minimum. -/
theorem c4_witness : specLexGe (2, 1, 5) (2, 0, 0) :=
  (c4_version_compat.1 "claude 2.1.5" ⟨"2.1.5", 2, 1, 5, true⟩ (by decide)).mp rfl

theorem jsStrLengthPos (a : String) (h : a ≠ "") : 0 < a.length := by
  cases a with
  | mk l =>
    cases l with
    | nil => exact absurd rfl h
    | cons c cs => simp [String.length]

theorem foldl_join_le (sep : String) (t : List String) :
    ∀ a : String, a.length ≤ (t.foldl (fun x y => x ++ sep ++ y) a).length := by
  induction t with
  | nil => intro a; exact le_rfl
  | cons b t ih =>
    intro a
    refine le_trans ?_ (ih (a ++ sep ++ b))
    rw [String.length_append, String.length_append]
    omega

theorem joinSep_ne_empty (sep : String) (l : List String) (hne : l ≠ [])
    (hall : ∀ x ∈ l, x ≠ "") : joinSep sep l ≠ "" := by
  cases l with
  | nil => exact absurd rfl hne
  | cons a t =>
    intro hcontra
    have hlen := foldl_join_le sep t a
    rw [show joinSep sep (a :: t) = t.foldl (fun x y => x ++ sep ++ y) a from rfl]
      at hcontra
    rw [hcontra, String.length_empty] at hlen
    have hpos := jsStrLengthPos a (hall a (by simp))
    omega

theorem gitStep_le (lib : WinPathLib) (acc : List String) (c : String) :
    acc.length ≤ (ShellEnv.gitStep lib acc c).length := by
  simp only [ShellEnv.gitStep]
  split
  · exact le_rfl
  · simp

theorem appendGit_le (lib : WinPathLib) (commons : List String) :
    ∀ acc : List String, acc.length ≤ (ShellEnv.appendGit lib acc commons).length := by
  induction commons with
  | nil => intro acc; exact le_rfl
  | cons c t ih =>
    intro acc
    exact le_trans (gitStep_le lib acc c)
      (ih (ShellEnv.gitStep lib acc c))

theorem appendGit_pos (lib : WinPathLib) (paths : List String) (c : String)
    (t : List String) : 0 < (ShellEnv.appendGit lib paths (c :: t)).length := by
  cases paths with
  | nil =>
    have h1 : ShellEnv.appendGit lib [] (c :: t) =
        ShellEnv.appendGit lib [lib.normalize c] t := by
      simp [ShellEnv.appendGit, ShellEnv.gitStep]
    rw [h1]
    exact Nat.lt_of_lt_of_le (by simp) (appendGit_le lib t [lib.normalize c])
  | cons a p =>
    exact Nat.lt_of_lt_of_le (by simp) (appendGit_le lib (c :: t) (a :: p))

theorem gitStep_mem_ne (lib : WinPathLib) (hn : ∀ s, lib.normalize s ≠ "")
    (acc : List String) (c : String) (hacc : ∀ x ∈ acc, x ≠ "") :
    ∀ x ∈ ShellEnv.gitStep lib acc c, x ≠ "" := by
  simp only [ShellEnv.gitStep]
  split
  · exact hacc
  · intro x hx
    rcases List.mem_append.mp hx with h | h
    · exact hacc x h
    · rw [List.mem_singleton] at h
      exact h ▸ hn c

theorem appendGit_mem_ne (lib : WinPathLib) (hn : ∀ s, lib.normalize s ≠ "")
    (commons : List String) :
    ∀ acc : List String, (∀ x ∈ acc, x ≠ "") →
      ∀ x ∈ ShellEnv.appendGit lib acc commons, x ≠ "" := by
  induction commons with
  | nil => intro acc hacc; exact hacc
  | cons c t ih =>
    intro acc hacc
    exact ih (ShellEnv.gitStep lib acc c) (gitStep_mem_ne lib hn acc c hacc)

theorem basePaths_mem_ne (procPath : Option String) :
    ∀ x ∈ ClaudeEnv.basePaths procPath, x ≠ "" := by
  intro x hx
  cases procPath with
  | none => simp [ClaudeEnv.basePaths] at hx
  | some p =>
    by_cases hp : p = ""
    · simp [ClaudeEnv.basePaths, hp] at hx
    · simp only [ClaudeEnv.basePaths, if_neg hp] at hx
      have := (List.mem_filter.mp hx).2
      simpa [bne_iff_ne] using this

theorem gitBuildWindowsPath_ne_empty (lib : WinPathLib)
    (hn : ∀ s, lib.normalize s ≠ "") (procPath systemRoot : Option String)
    (homedir : String) :
    ShellEnv.buildWindowsPath lib procPath systemRoot homedir ≠ "" := by
  unfold ShellEnv.buildWindowsPath ShellEnv.buildWindowsPathPaths
  apply joinSep_ne_empty
  · apply List.ne_nil_of_length_pos
    unfold ShellEnv.commonPathsGit
    exact appendGit_pos lib _ _ _
  · exact appendGit_mem_ne lib hn _ _ (basePaths_mem_ne procPath)

/-- C5 (amended): on the Windows branch the provider's map always carries a
non-empty `PATH` (given that path normalization never returns the empty
string, which is true of Node's); on the Unix branches the map is exactly
what the source supplies — the parse of the shell's stdout on success, the
string-valued host entries on fallback — so `PATH`/`HOME` are present only
when that source contains them.  (The unconditional claim fails: see
`c5_counterexample`.) -/
theorem c5_path_invariant_amended (w : ShellEnv.GitWorld) (st : ShellEnv.ShellCache)
    (hmiss : st.cachedEnv = none) :
    (w.plat = .win32 → (∀ s, w.lib.normalize s ≠ "") →
      HasNonemptyPATH (ShellEnv.getShellEnvironment w st).1) ∧
    (w.plat ≠ .win32 → ∀ out, w.spawn = .ok out →
      (ShellEnv.getShellEnvironment w st).1 = ShellEnv.parseStdout out) ∧
    (w.plat ≠ .win32 → ∀ msg, w.spawn = .error msg →
      (ShellEnv.getShellEnvironment w st).1 = stringEntries w.processEnv) := by
  refine ⟨?_, ?_, ?_⟩
  · intro hplat hn
    refine ⟨ShellEnv.buildWindowsPath w.lib (procGet w.processEnv "PATH")
      (procGet w.processEnv "SystemRoot") w.homedir, ?_, ?_⟩
    · simp [ShellEnv.getShellEnvironment, hmiss, ShellEnv.deriveEnv, hplat,
        ShellEnv.winEnv, envSet]
    · exact gitBuildWindowsPath_ne_empty w.lib hn _ _ _
  · intro hplat out hspawn
    simp [ShellEnv.getShellEnvironment, hmiss, ShellEnv.deriveEnv, hplat, hspawn]
  · intro hplat msg hspawn
    simp [ShellEnv.getShellEnvironment, hmiss, ShellEnv.deriveEnv, hplat, hspawn]

/-- C5 counterexample: a successful full derivation on Linux whose shell
emitted no `PATH` line yields a map without any `PATH` entry, falsifying the
claimed invariant that every produced map has a non-empty `PATH`. -/
theorem c5_counterexample :
    ¬ HasNonemptyPATH (ShellEnv.getShellEnvironment wC5 st0).1 := by
  rintro ⟨v, hv, -⟩
  rw [show (ShellEnv.getShellEnvironment wC5 st0).1 "PATH" = none from rfl] at hv
  exact Option.noConfusion hv

/-- Witness for C5's amended theorem on a concrete Windows world. -/
theorem c5_witness : HasNonemptyPATH (ShellEnv.getShellEnvironment wC5w st0).1 :=
  (c5_path_invariant_amended wC5w st0 rfl).1 rfl
    (fun s => by by_cases hs : s = "" <;> simp [wC5w, libW, hs])

/-- C6: `getShellEnvironment` never throws — it is total, and on a spawn
failure (with no live cache) it returns the string-valued copy of the host
process environment, caching it marked as a fallback stamped with the
current time; the fallback TTL is 10 s against the 60 s full TTL, and it is
the fallback TTL that governs a fallback-flagged entry: at age ≥ 10 s the
entry is re-derived rather than served, while a full entry of the same age
under 60 s is still served. -/
theorem c6_fallback_no_throw (w : ShellEnv.GitWorld) (st : ShellEnv.ShellCache)
    (hplat : w.plat ≠ .win32) (hmiss : st.cachedEnv = none)
    (msg : String) (hspawn : w.spawn = .error msg) :
    (ShellEnv.getShellEnvironment w st).1 = stringEntries w.processEnv ∧
    (ShellEnv.getShellEnvironment w st).2.isFallbackCache = true ∧
    (ShellEnv.getShellEnvironment w st).2.cachedEnv = some (stringEntries w.processEnv) ∧
    (ShellEnv.getShellEnvironment w st).2.cacheTime = w.now ∧
    ShellEnv.FALLBACK_CACHE_TTL_MS = 10000 ∧
    ShellEnv.CACHE_TTL_MS = 60000 ∧
    (∀ st' : ShellEnv.ShellCache, ∀ e, st'.cachedEnv = some e →
      st'.isFallbackCache = true →
      ShellEnv.FALLBACK_CACHE_TTL_MS ≤ w.now - st'.cacheTime →
      (ShellEnv.getShellEnvironment w st').1 = (ShellEnv.deriveEnv w).1) ∧
    (∀ st' : ShellEnv.ShellCache, ∀ e, st'.cachedEnv = some e →
      st'.isFallbackCache = false →
      w.now - st'.cacheTime < ShellEnv.CACHE_TTL_MS →
      (ShellEnv.getShellEnvironment w st').1 = e) := by
  refine ⟨?_, ?_, ?_, ?_, rfl, rfl, ?_, ?_⟩
  · simp [ShellEnv.getShellEnvironment, hmiss, ShellEnv.deriveEnv, hplat, hspawn]
  · simp [ShellEnv.getShellEnvironment, hmiss, ShellEnv.deriveEnv, hplat, hspawn]
  · simp [ShellEnv.getShellEnvironment, hmiss, ShellEnv.deriveEnv, hplat, hspawn]
  · simp [ShellEnv.getShellEnvironment, hmiss, ShellEnv.deriveEnv, hplat, hspawn]
  · intro st' e hcache hfb httl
    simp [ShellEnv.getShellEnvironment, hcache, hfb, Nat.not_lt.mpr httl]
  · intro st' e hcache hfb httl
    simp [ShellEnv.getShellEnvironment, hcache, hfb, httl]

/-- Witness for C6 at a concrete world whose spawn fails (then the returned
map is the string-valued host copy: `HOME` survives, the non-string entry is
dropped). -/
theorem c6_witness :
    (ShellEnv.getShellEnvironment wC6 st0).1 = stringEntries wC6.processEnv ∧
    (ShellEnv.getShellEnvironment wC6 st0).2.isFallbackCache = true ∧
    (ShellEnv.getShellEnvironment wC6 st0).2.cachedEnv =
      some (stringEntries wC6.processEnv) ∧
    (ShellEnv.getShellEnvironment wC6 st0).2.cacheTime = wC6.now ∧
    ShellEnv.FALLBACK_CACHE_TTL_MS = 10000 ∧
    ShellEnv.CACHE_TTL_MS = 60000 ∧
    (∀ st' : ShellEnv.ShellCache, ∀ e, st'.cachedEnv = some e →
      st'.isFallbackCache = true →
      ShellEnv.FALLBACK_CACHE_TTL_MS ≤ wC6.now - st'.cacheTime →
      (ShellEnv.getShellEnvironment wC6 st').1 = (ShellEnv.deriveEnv wC6).1) ∧
    (∀ st' : ShellEnv.ShellCache, ∀ e, st'.cachedEnv = some e →
      st'.isFallbackCache = false →
      wC6.now - st'.cacheTime < ShellEnv.CACHE_TTL_MS →
      (ShellEnv.getShellEnvironment wC6 st').1 = e) :=
  c6_fallback_no_throw wC6 st0 (by decide) rfl "spawn timed out" rfl

theorem optLast_aux (k : String) (t : List (String × String)) :
    ∀ init : Option String,
      t.foldl (fun acc p => if p.1 = k then some p.2 else acc) init =
        match optLast t k with
        | some v => some v
        | none => init := by
  induction t with
  | nil => intro init; simp [optLast]
  | cons b t ih =>
    intro init
    simp only [List.foldl_cons]
    rw [ih]
    have hb : optLast (b :: t) k =
        (match optLast t k with
         | some v => some v
         | none => if b.1 = k then some b.2 else none) := by
      simp only [optLast, List.foldl_cons]
      rw [ih]
      rfl
    rw [hb]
    cases optLast t k with
    | some v => simp
    | none => by_cases hbk : b.1 = k <;> simp [hbk]

theorem overlay_lookup (l : List (String × String)) :
    ∀ (base : EnvMap) (k : String),
      ShellEnv.overlay base l k =
        match optLast l k with
        | some v => some v
        | none => base k := by
  induction l with
  | nil => intro base k; simp [ShellEnv.overlay, optLast]
  | cons a t ih =>
    intro base k
    simp only [ShellEnv.overlay, List.foldl_cons] at *
    rw [ih]
    have hb : optLast (a :: t) k =
        (match optLast t k with
         | some v => some v
         | none => if a.1 = k then some a.2 else none) := by
      simp only [optLast, List.foldl_cons]
      rw [optLast_aux]
      rfl
    rw [hb]
    cases optLast t k with
    | some v => simp
    | none =>
      simp only
      unfold envSet
      by_cases hak : k = a.1
      · simp [hak]
      · rw [if_neg hak, if_neg (fun h => hak h.symm)]

/-- C7: self-heal state machine of `execWithShellEnv`.  An `ENOENT` failure
on macOS with no fix attempted and none succeeded triggers exactly one
derivation and one retry, whose environment layers the caller's overrides on
the derived environment with `PATH` forced to the derived value when one
exists; once the fix has succeeded, a later not-found failure propagates with
no derivation or retry and unchanged state; a failing retry resets the
attempted flag and propagates the retry error; any other failure (wrong
platform, already attempted, non-ENOENT) propagates the original error with
no retry. -/
theorem c7_self_heal (w : ShellEnv.ExecWorld) (st : ShellEnv.FixState) :
    (∀ e, w.firstResult = .error e → w.shellWorld.plat = .darwin →
      st.pathFixAttempted = false → st.pathFixSucceeded = false →
      e.code = some "ENOENT" →
      (ShellEnv.execWithShellEnv w st).derivations = 1 ∧
      (ShellEnv.execWithShellEnv w st).retries = 1 ∧
      (∀ re, (ShellEnv.execWithShellEnv w st).retryEnv = some re →
        (∀ p, (ShellEnv.getShellEnvironment w.shellWorld st.envCache).1 "PATH" = some p →
          p ≠ "" → re "PATH" = some p) ∧
        (∀ k, k ≠ "PATH" →
          re k =
            match optLast w.optionsEnv k with
            | some v => some v
            | none => (ShellEnv.getShellEnvironment w.shellWorld st.envCache).1 k))) ∧
    (∀ e, w.firstResult = .error e → st.pathFixSucceeded = true →
      (ShellEnv.execWithShellEnv w st).result = .error e ∧
      (ShellEnv.execWithShellEnv w st).derivations = 0 ∧
      (ShellEnv.execWithShellEnv w st).retries = 0 ∧
      (ShellEnv.execWithShellEnv w st).state = st) ∧
    (∀ e r, w.firstResult = .error e → w.shellWorld.plat = .darwin →
      st.pathFixAttempted = false → st.pathFixSucceeded = false →
      e.code = some "ENOENT" → w.retryResult = .error r →
      (ShellEnv.execWithShellEnv w st).result = .error r ∧
      (ShellEnv.execWithShellEnv w st).state.pathFixAttempted = false) ∧
    (∀ e, w.firstResult = .error e →
      (w.shellWorld.plat ≠ .darwin ∨ st.pathFixAttempted = true ∨
        e.code ≠ some "ENOENT") →
      (ShellEnv.execWithShellEnv w st).result = .error e ∧
      (ShellEnv.execWithShellEnv w st).derivations = 0 ∧
      (ShellEnv.execWithShellEnv w st).retries = 0 ∧
      (ShellEnv.execWithShellEnv w st).state = st) := by
  refine ⟨?_, ?_, ?_, ?_⟩
  · intro e hfr hplat hatt hsucc hcode
    have hguard : (w.shellWorld.plat != Platform.darwin || st.pathFixSucceeded
        || st.pathFixAttempted || e.code != some "ENOENT") = false := by
      simp [hplat, hatt, hsucc, hcode]
    cases hrr : w.retryResult with
    | ok o =>
      refine ⟨?_, ?_, ?_⟩
      · simp [ShellEnv.execWithShellEnv, hfr, hguard, hrr]
      · simp [ShellEnv.execWithShellEnv, hfr, hguard, hrr]
      · intro re hre
        simp only [ShellEnv.execWithShellEnv, hfr, hguard, hrr, Bool.false_eq_true,
          if_false, Option.some.injEq] at hre
        cases hps : (ShellEnv.getShellEnvironment w.shellWorld st.envCache).1 "PATH" with
        | none =>
          rw [hps] at hre
          subst hre
          refine ⟨?_, ?_⟩
          · intro p hp _
            exact Option.noConfusion hp
          · intro k _
            exact overlay_lookup w.optionsEnv _ k
        | some p =>
          rw [hps] at hre
          by_cases hpe : p = ""
          · subst hpe
            simp only [bne_self_eq_false, Bool.false_eq_true, if_false] at hre
            subst hre
            refine ⟨?_, ?_⟩
            · intro p' hp' hpne'
              injection hp' with hp'
              exact absurd hp'.symm hpne'
            · intro k _
              exact overlay_lookup w.optionsEnv _ k
          · simp only [bne_iff_ne, ne_eq, hpe, not_false_eq_true, if_true] at hre
            subst hre
            refine ⟨?_, ?_⟩
            · intro p' hp' _
              injection hp' with hp'
              subst hp'
              simp [envSet]
            · intro k hk
              rw [show envSet (ShellEnv.overlay
                    (ShellEnv.getShellEnvironment w.shellWorld st.envCache).1
                    w.optionsEnv) "PATH" p k =
                  ShellEnv.overlay
                    (ShellEnv.getShellEnvironment w.shellWorld st.envCache).1
                    w.optionsEnv k from if_neg hk]
              exact overlay_lookup w.optionsEnv _ k
    | error r =>
      refine ⟨?_, ?_, ?_⟩
      · simp [ShellEnv.execWithShellEnv, hfr, hguard, hrr]
      · simp [ShellEnv.execWithShellEnv, hfr, hguard, hrr]
      · intro re hre
        simp only [ShellEnv.execWithShellEnv, hfr, hguard, hrr, Bool.false_eq_true,
          if_false, Option.some.injEq] at hre
        cases hps : (ShellEnv.getShellEnvironment w.shellWorld st.envCache).1 "PATH" with
        | none =>
          rw [hps] at hre
          subst hre
          refine ⟨?_, ?_⟩
          · intro p hp _
            exact Option.noConfusion hp
          · intro k _
            exact overlay_lookup w.optionsEnv _ k
        | some p =>
          rw [hps] at hre
          by_cases hpe : p = ""
          · subst hpe
            simp only [bne_self_eq_false, Bool.false_eq_true, if_false] at hre
            subst hre
            refine ⟨?_, ?_⟩
            · intro p' hp' hpne'
              injection hp' with hp'
              exact absurd hp'.symm hpne'
            · intro k _
              exact overlay_lookup w.optionsEnv _ k
          · simp only [bne_iff_ne, ne_eq, hpe, not_false_eq_true, if_true] at hre
            subst hre
            refine ⟨?_, ?_⟩
            · intro p' hp' _
              injection hp' with hp'
              subst hp'
              simp [envSet]
            · intro k hk
              rw [show envSet (ShellEnv.overlay
                    (ShellEnv.getShellEnvironment w.shellWorld st.envCache).1
                    w.optionsEnv) "PATH" p k =
                  ShellEnv.overlay
                    (ShellEnv.getShellEnvironment w.shellWorld st.envCache).1
                    w.optionsEnv k from if_neg hk]
              exact overlay_lookup w.optionsEnv _ k
  · intro e hfr hsucc
    have hguard : (w.shellWorld.plat != Platform.darwin || st.pathFixSucceeded
        || st.pathFixAttempted || e.code != some "ENOENT") = true := by
      simp [hsucc]
    refine ⟨?_, ?_, ?_, ?_⟩ <;> simp [ShellEnv.execWithShellEnv, hfr, hguard]
  · intro e r hfr hplat hatt hsucc hcode hrr
    have hguard : (w.shellWorld.plat != Platform.darwin || st.pathFixSucceeded
        || st.pathFixAttempted || e.code != some "ENOENT") = false := by
      simp [hplat, hatt, hsucc, hcode]
    refine ⟨?_, ?_⟩ <;> simp [ShellEnv.execWithShellEnv, hfr, hguard, hrr]
  · intro e hfr hdisj
    have hguard : (w.shellWorld.plat != Platform.darwin || st.pathFixSucceeded
        || st.pathFixAttempted || e.code != some "ENOENT") = true := by
      rcases hdisj with h | h | h
      · simp [bne_iff_ne.mpr h]
      · simp [h]
      · simp [bne_iff_ne.mpr h]
    refine ⟨?_, ?_, ?_, ?_⟩ <;> simp [ShellEnv.execWithShellEnv, hfr, hguard]

/-- Witness for C7: a retry failure at a concrete world propagates the retry
error and resets the attempted flag. -/
theorem c7_witness :
    (ShellEnv.execWithShellEnv wC7 stC7).result = .error ⟨some "ENOENT"⟩ ∧
    (ShellEnv.execWithShellEnv wC7 stC7).state.pathFixAttempted = false :=
  (c7_self_heal wC7 stC7).2.2.1 ⟨some "ENOENT"⟩ ⟨some "ENOENT"⟩ rfl rfl rfl rfl rfl rfl

/-- C8: when nothing resolves, the status is `MISSING` and the message
depends on configuration — with a failed configured path it reports both the
configured-path failure and that PATH lookup failed; with no configured path
it is the generic install-or-configure hint, which does not contain the
phrase "configured path". -/
theorem c8_missing_messages (w : CliResolver.RWorld) (now : Nat) :
    (∀ c err, c ≠ "" →
      CliResolver.validateCliPath w.plat w.fsys c = some err →
      w.pathLookup = none →
      (CliResolver.resolveClaudeCli w now (some c) false none).1 =
        ⟨none, none, .MISSING,
          some ("Configured path invalid: " ++ err ++ ". Also not found in PATH.")⟩) ∧
    (w.pathLookup = none →
      (CliResolver.resolveClaudeCli w now none false none).1 =
        ⟨none, none, .MISSING,
          some "Claude CLI not found in PATH. Install it or configure a custom path in settings."⟩) ∧
    containsSub "configured path"
      "Claude CLI not found in PATH. Install it or configure a custom path in settings."
      = false := by
  refine ⟨?_, ?_, by decide⟩
  · intro c err hc hval hlook
    simp [CliResolver.resolveClaudeCli, CliResolver.resolveFresh, CliResolver.configStep,
      CliResolver.missingResult, CliResolver.cacheResult, jsTruthy, hc, hval, hlook,
      bne_iff_ne]
  · intro hlook
    simp [CliResolver.resolveClaudeCli, CliResolver.resolveFresh, CliResolver.configStep,
      CliResolver.missingResult, CliResolver.cacheResult, jsTruthy, hlook]

/-- Witness for C8 at a concrete world with an invalid configured path and
nothing on PATH. -/
theorem c8_witness :
    (CliResolver.resolveClaudeCli wC8 0 (some "x") false none).1 =
      ⟨none, none, .MISSING,
        some ("Configured path invalid: " ++ "CLI path must be absolute" ++
          ". Also not found in PATH.")⟩ :=
  (c8_missing_messages wC8 0).1 "x" "CLI path must be absolute" (by decide) rfl rfl

theorem gitStep_dedup (lib : WinPathLib)
    (hid : ∀ s, lib.normalize (lib.normalize s) = lib.normalize s)
    (n : Nat) (acc : List String) (c : String) (_hn : n ≤ acc.length)
    (hd : CandidateDedup lib.normalize n acc) :
    CandidateDedup lib.normalize n (ShellEnv.gitStep lib acc c) := by
  simp only [ShellEnv.gitStep]
  split
  · exact hd
  · next hguard =>
    intro j hnj hjlen i hij
    rw [List.length_append, List.length_singleton] at hjlen
    by_cases hja : j < acc.length
    · rw [List.getD_append _ _ _ _ hja, List.getD_append _ _ _ _ (lt_trans hij hja)]
      exact hd j hnj hja i hij
    · have hj : j = acc.length := by omega
      subst hj
      have hil : i < acc.length := hij
      rw [List.getD_append _ _ _ _ hil,
        List.getD_append_right _ _ _ _ (le_refl acc.length)]
      simp only [Nat.sub_self, List.getD_cons_zero]
      rw [hid c]
      have hmem : acc.getD i "" ∈ acc := by
        rw [List.getD_eq_getElem _ _ hil]
        exact List.getElem_mem _
      intro heq
      apply hguard
      rw [List.any_eq_true]
      exact ⟨acc.getD i "", hmem, by rw [beq_iff_eq]; exact heq⟩

theorem appendGit_dedup (lib : WinPathLib)
    (hid : ∀ s, lib.normalize (lib.normalize s) = lib.normalize s)
    (commons : List String) :
    ∀ (acc : List String) (n : Nat), n ≤ acc.length →
      CandidateDedup lib.normalize n acc →
      CandidateDedup lib.normalize n (ShellEnv.appendGit lib acc commons) := by
  induction commons with
  | nil => intro acc n _ hd; exact hd
  | cons c t ih =>
    intro acc n hn hd
    exact ih (ShellEnv.gitStep lib acc c) n (le_trans hn (gitStep_le lib acc c))
      (gitStep_dedup lib hid n acc c hn hd)

/-- C9 (amended): the `git/shell-env.ts` `buildWindowsPath` satisfies the
claimed invariant — starting from the existing PATH entries, every appended
candidate is distinct, after normalization and case folding, from everything
before it (given that normalization is idempotent, which is true of Node's).
The claim's other half fails for the `claude/env.ts` variant, whose
membership check is exact and case-sensitive: see `c9_counterexample`. -/
theorem c9_dedup_amended (lib : WinPathLib)
    (hid : ∀ s, lib.normalize (lib.normalize s) = lib.normalize s)
    (procPath systemRoot : Option String) (homedir : String) :
    CandidateDedup lib.normalize (ClaudeEnv.basePaths procPath).length
      (ShellEnv.buildWindowsPathPaths lib procPath systemRoot homedir) := by
  unfold ShellEnv.buildWindowsPathPaths
  exact appendGit_dedup lib hid _ _ _ le_rfl
    (fun j hnj hjlen i _ => absurd hnj (Nat.not_le.mpr hjlen))

/-- C9 counterexample: the `claude/env.ts` `buildWindowsPath` compares the
normalized candidate only by exact membership, so with `c:\windows\system32`
already on PATH it appends `C:\Windows\System32` — two entries equal after
normalization and case folding. -/
theorem c9_counterexample :
    ¬ CandidateDedup libCx.normalize
      (ClaudeEnv.basePaths (some "c:\\windows\\system32")).length
      (ClaudeEnv.buildWindowsPathPaths libCx (some "c:\\windows\\system32")
        none none none none "C:\\Users\\u") := by
  intro h
  exact h 5 (by decide) (by decide) 0 (by decide) (by decide)

/-- Witness for C9's amended theorem at a concrete library and PATH. -/
theorem c9_witness :
    CandidateDedup libW.normalize (ClaudeEnv.basePaths (some "C:\\base")).length
      (ShellEnv.buildWindowsPathPaths libW (some "C:\\base") none "C:\\Users\\u") :=
  c9_dedup_amended libW
    (fun s => by by_cases hs : s = "" <;> simp [libW, hs])
    (some "C:\\base") none "C:\\Users\\u"

theorem validateCliPath_ne_empty (plat : Platform) (fsys : CliResolver.FileSys)
    (s e : String) (h : CliResolver.validateCliPath plat fsys s = some e) : e ≠ "" := by
  simp only [CliResolver.validateCliPath] at h
  split at h
  · injection h with h; subst h; decide
  · split at h
    · injection h with h; subst h; decide
    · split at h
      · injection h with h; subst h; decide
      · split at h
        · injection h with h; subst h; decide
        · next msg =>
          injection h with h
          subst h
          intro hc
          have hlen := congrArg String.length hc
          rw [String.length_append, String.length_empty] at hlen
          have : (0 : Nat) < ("Validation error: " : String).length := by decide
          omega
        · split at h
          · injection h with h; subst h; decide
          · split at h
            · injection h with h; subst h; decide
            · exact Option.noConfusion h

theorem append_ne_left (x y : String) (hx : x ≠ "") : x ++ y ≠ "" := by
  intro h
  have hlen := congrArg String.length h
  rw [String.length_append, String.length_empty] at hlen
  have := jsStrLengthPos x hx
  omega

theorem missingResult_inv (configuredPath validationError : Option String) :
    ResolutionInv (CliResolver.missingResult configuredPath validationError) := by
  refine ⟨by simp [CliResolver.missingResult], ?_, ?_⟩
  · intro h
    simp [CliResolver.missingResult] at h
  · intro h
    rcases h with h | h <;> simp [CliResolver.missingResult] at h

theorem classify_inv (w : CliResolver.RWorld) (now : Nat) (rp : String)
    (ve : Option String) (hve : ve = none ∨ ∃ e, ve = some e ∧ e ≠ "") :
    ResolutionInv (CliResolver.classify w now rp ve).1 ∧
    (CliResolver.classify w now rp ve).2 =
      CliResolver.cacheResult (CliResolver.classify w now rp ve).1 now := by
  unfold CliResolver.classify
  cases hse : CliResolver.step4Error w rp ve with
  | some e =>
    have he : e ≠ "" := by
      unfold CliResolver.step4Error at hse
      rcases hve with hve | ⟨e0, hve, hne⟩
      · rw [hve] at hse
        exact validateCliPath_ne_empty _ _ _ _ hse
      · rw [hve] at hse
        injection hse with h
        exact h ▸ hne
    exact ⟨⟨by simp, by simp, fun _ => ⟨by simp, e, rfl, he⟩⟩, rfl⟩
  | none =>
    cases hv : CliResolver.getCliVersion w rp with
    | none =>
      exact ⟨⟨by simp, by simp, fun _ => ⟨by simp, _, rfl, by decide⟩⟩, rfl⟩
    | some version =>
      by_cases hcomp : version.isCompatible
      · refine ⟨?_, ?_⟩
        · simp only [hcomp, Bool.not_true, Bool.false_eq_true, if_false]
          exact ⟨by simp, fun _ => ⟨rfl, version, rfl, hcomp⟩, by simp⟩
        · simp [hcomp]
      · simp only [Bool.not_eq_true] at hcomp
        refine ⟨?_, ?_⟩
        · simp only [hcomp, Bool.not_false, if_true]
          refine ⟨by simp, by simp, fun _ => ⟨by simp, _, rfl, ?_⟩⟩
          exact append_ne_left _ _ (append_ne_left _ _ (append_ne_left _ _
            (append_ne_left _ _ (by decide))))
        · simp [hcomp]

theorem resolveFresh_inv (w : CliResolver.RWorld) (now : Nat)
    (cfg : Option String) :
    ResolutionInv (CliResolver.resolveFresh w now cfg).1 ∧
    (CliResolver.resolveFresh w now cfg).2 =
      CliResolver.cacheResult (CliResolver.resolveFresh w now cfg).1 now := by
  have hve : (CliResolver.configStep w cfg).2 = none ∨
      ∃ e, (CliResolver.configStep w cfg).2 = some e ∧ e ≠ "" := by
    unfold CliResolver.configStep
    split
    · cases hval : CliResolver.validateCliPath w.plat w.fsys (cfg.getD "") with
      | none => exact Or.inl rfl
      | some e =>
        exact Or.inr ⟨e, rfl, validateCliPath_ne_empty _ _ _ _ hval⟩
    · exact Or.inl rfl
  unfold CliResolver.resolveFresh
  cases hrp : (if jsTruthy (CliResolver.configStep w cfg).1 then
      (CliResolver.configStep w cfg).1 else w.pathLookup) with
  | none =>
    refine ⟨?_, ?_⟩ <;> simp only [hrp]
    · exact missingResult_inv _ _
  | some rp =>
    by_cases hrpe : rp = ""
    · refine ⟨?_, ?_⟩ <;> simp only [hrp, hrpe, if_pos rfl, if_true]
      · exact missingResult_inv _ _
    · refine ⟨?_, ?_⟩ <;> simp only [hrp, if_neg hrpe]
      · exact (classify_inv w now rp _ hve).1
      · exact (classify_inv w now rp _ hve).2

/-- C10: result-shape invariant of `resolveClaudeCli` — in every resolution
it returns or caches, `path` is null exactly when the status is `MISSING`;
an `OK` result carries a compatible version and no error; a
`VALIDATION_ERROR` or `VERSION_INCOMPATIBLE` result carries a path and a
non-empty error message (assuming any pre-existing cache entry satisfies the
same invariant, which every entry this function writes does). -/
theorem c10_result_shape (w : CliResolver.RWorld) (now : Nat)
    (cfg : Option String) (skipCache : Bool)
    (cache : Option CliResolver.ResolutionCache)
    (hc : ∀ c, cache = some c → ResolutionInv c.toResolution) :
    ResolutionInv (CliResolver.resolveClaudeCli w now cfg skipCache cache).1 ∧
    (∀ c', (CliResolver.resolveClaudeCli w now cfg skipCache cache).2 = some c' →
      ResolutionInv c'.toResolution) := by
  unfold CliResolver.resolveClaudeCli
  by_cases hskip : skipCache
  · simp only [hskip, Bool.not_true, Bool.false_eq_true, if_false]
    refine ⟨(resolveFresh_inv w now cfg).1, ?_⟩
    intro c' hc'
    rw [(resolveFresh_inv w now cfg).2] at hc'
    unfold CliResolver.cacheResult at hc'
    injection hc' with h
    subst h
    exact (resolveFresh_inv w now cfg).1
  · simp only [Bool.not_eq_true] at hskip
    simp only [hskip, Bool.not_false, if_true]
    cases cache with
    | some c =>
      refine ⟨hc c rfl, ?_⟩
      intro c' hc'
      injection hc' with h
      subst h
      exact hc c rfl
    | none =>
      refine ⟨(resolveFresh_inv w now cfg).1, ?_⟩
      intro c' hc'
      rw [(resolveFresh_inv w now cfg).2] at hc'
      unfold CliResolver.cacheResult at hc'
      injection hc' with h
      subst h
      exact (resolveFresh_inv w now cfg).1

/-- Witness for C10 at a concrete world with an empty cache. -/
theorem c10_witness :
    ResolutionInv
      (CliResolver.resolveClaudeCli wC8 7 (some "/usr/bin/claude") false none).1 :=
  (c10_result_shape wC8 7 (some "/usr/bin/claude") false none
    (fun _ h => Option.noConfusion h)).1
